import Mathlib

/-!
Shallow embedding of `winlogbeat/checkpoint/checkpoint.go` (package
`checkpoint`): the in-memory state table, the flush scheduler worker loop,
the durable writer (write-temp-then-rename protocol) and the bootstrap
reader, together with theorems settling the frozen claims about them.

Modelling conventions:
* `time.Time` values and `time.Duration` are modelled as integers
  (nanoseconds); `uint32` record numbers carry no arithmetic and are `Nat`.
* The Go `map[string]EventLogState` is an association list with the
  invariant that keys are unique; `m[k] = v` is `setState`, lookup is
  `lookupState`.
* The filesystem visible to `flush`/`read` is the `FS` structure: the
  target file, the sibling temporary file, a modification counter bumped
  whenever the target is replaced, a clock for `time.Now()`, and four
  failure-injection flags corresponding to the four fallible steps of
  `flush` (`os.Create`, `yaml.Marshal`, `file.Write`, `os.Rename`).
* YAML serialization is modelled by storing the structured
  `PersistedState` value in the file: `FileContent.snapshot ps` is a file
  holding the marshalled form of `ps`, `FileContent.empty` is an existing
  zero-length file (which `yaml.Unmarshal` accepts, leaving the struct at
  its zero value), and `FileContent.corrupt` is an existing file that
  `yaml.Unmarshal` rejects.
* The worker goroutine `run` is an event-driven step function over the
  three channel sources of its `select`: `done`, `save` and the flush
  timer.  `sync.Once` is the `onceDone` flag.  `Persist` (the public
  record call) only sends on the `save` channel, so its embedding is the
  `Event.save` constructor; its type has no error component, mirroring
  the non-failing contract of the Go method.
-/

namespace Winlogbeat

/-- State of an individual event log: `EventLogState` in checkpoint.go. -/
structure EventLogState where
  Name : String
  RecordNumber : Nat
  Timestamp : Int
  deriving Repr, DecidableEq

instance : Inhabited EventLogState := ⟨⟨"", 0, 0⟩⟩

/-- Format of the data persisted to disk: `PersistedState` in checkpoint.go. -/
structure PersistedState where
  UpdateTime : Int
  States : List EventLogState
  deriving Repr, DecidableEq

/-- Contents of a file as seen by `flush` and `read`. -/
inductive FileContent where
  | absent
  | empty
  | snapshot (ps : PersistedState)
  | corrupt
  deriving Repr, DecidableEq

/-- The filesystem state that `flush` and `read` interact with, plus
failure-injection flags for each fallible step of `flush`. -/
structure FS where
  target : FileContent
  temp : FileContent
  modMarker : Nat
  clock : Int
  createFails : Bool
  marshalFails : Bool
  writeFails : Bool
  renameFails : Bool
  deriving Repr, DecidableEq

/-- The checkpoint state: the fields of the Go `Checkpoint` struct that
carry semantics (the `wg`, `done` channel, scratch `sort` slice and lock
are concurrency plumbing absorbed by the event-driven model; `sync.Once`
is the `onceDone` flag). -/
structure Checkpoint where
  file : String
  numUpdates : Int
  maxUpdates : Int
  flushInterval : Int
  states : List (String × EventLogState)
  onceDone : Bool
  deriving Repr, DecidableEq

/-- Go map assignment `m[s.Name] = s`: replace the entry for the key if
present, otherwise add it. -/
def setState : List (String × EventLogState) → EventLogState →
    List (String × EventLogState)
  | [], s => [(s.Name, s)]
  | (k, v) :: t, s =>
    if k = s.Name then (k, s) :: t else (k, v) :: setState t s

/-- Go map lookup `m[n]`. -/
def lookupState : List (String × EventLogState) → String → Option EventLogState
  | [], _ => none
  | (k, v) :: t, n => if k = n then some v else lookupState t n

/-- One second as a `time.Duration` (nanoseconds). -/
def oneSecond : Int := 1000000000

/-- `States()`: the point-in-time copy of the in-memory table (copying is
the identity in the pure model). -/
def Checkpoint.States (c : Checkpoint) : List (String × EventLogState) :=
  c.states

/-- `read()`: load the persisted state from disk.  A missing file is not
an error (`nil, nil` in Go); an empty file unmarshals to the zero-value
`PersistedState`; a corrupt file is an unmarshal error. -/
def read (fs : FS) : Except String (Option PersistedState) :=
  match fs.target with
  | FileContent.absent => Except.ok none
  | FileContent.empty => Except.ok (some { UpdateTime := 0, States := [] })
  | FileContent.snapshot ps => Except.ok (some ps)
  | FileContent.corrupt => Except.error "yaml: unmarshal error"

/-- `flush()`: write the current state to disk via the temporary file.
Steps in source order: create the temp file, sort the state keys, build
the `PersistedState`, marshal it, write it, close, rename over the
target.  Each fallible step consults its injection flag. -/
def flush (c : Checkpoint) (fs : FS) : FS × Option String :=
  if fs.createFails then
    (fs, some "Failed to flush state to disk. Could not open temp file.")
  else
    let fs1 := { fs with temp := FileContent.empty }
    let names := List.insertionSort (fun a b => a ≤ b) (c.states.map Prod.fst)
    let entries := names.map (fun n => (lookupState c.states n).getD default)
    let ps : PersistedState := { UpdateTime := fs.clock, States := entries }
    if fs.marshalFails then
      (fs1, some "Failed to flush state to disk. Could not marshal data to YAML.")
    else if fs.writeFails then
      (fs1, some "Failed to flush state to disk. Could not write to temp file.")
    else
      let fs2 := { fs1 with temp := FileContent.snapshot ps }
      if fs.renameFails then
        (fs2, some "rename failed")
      else
        ({ fs2 with temp := FileContent.absent,
                    target := FileContent.snapshot ps,
                    modMarker := fs.modMarker + 1 }, none)

/-- `persist()`: write the current state to disk if the in-memory state is
dirty.  Returns the updated checkpoint, the updated filesystem, and the
Bool the Go method returns; a flush error is logged and swallowed
(`numUpdates` is not reset). -/
def persist (c : Checkpoint) (fs : FS) : Checkpoint × FS × Bool :=
  if c.numUpdates = 0 then
    (c, fs, false)
  else
    match flush c fs with
    | (fs', some _) => (c, fs', false)
    | (fs', none) => ({ c with numUpdates := 0 }, fs', true)

/-- The three event sources of the worker loop's `select`. -/
inductive Event where
  | done
  | save (s : EventLogState)
  | timer
  deriving Repr, DecidableEq

/-- Result of one iteration of the worker loop: the updated checkpoint
and filesystem, whether `persist` was invoked, what it returned, whether
`flushTimer.Reset` was called, and whether the loop continues. -/
structure StepResult where
  chk : Checkpoint
  fs : FS
  flushed : Bool
  persisted : Bool
  timerReset : Bool
  cont : Bool
  deriving Repr, DecidableEq

/-- One iteration of `run`'s loop.  `done` breaks the loop and performs
the final `persist` after it (no timer reset); `save s` applies the
update and persists only once `numUpdates` reaches `maxUpdates`; a timer
fire always invokes `persist`.  The timer is reset after every `persist`
invocation inside the loop, successful or not. -/
def step (c : Checkpoint) (fs : FS) : Event → StepResult
  | Event.done =>
    let r := persist c fs
    ⟨r.1, r.2.1, true, r.2.2, false, false⟩
  | Event.save s =>
    let c1 : Checkpoint :=
      { c with states := setState c.states s, numUpdates := c.numUpdates + 1 }
    if c1.numUpdates < c.maxUpdates then
      ⟨c1, fs, false, false, false, true⟩
    else
      let r := persist c1 fs
      ⟨r.1, r.2.1, true, r.2.2, true, true⟩
  | Event.timer =>
    let r := persist c fs
    ⟨r.1, r.2.1, true, r.2.2, true, true⟩

/-- Run the worker loop over a sequence of events, stopping when an
iteration breaks the loop. -/
def runEvents : Checkpoint → FS → List Event → Checkpoint × FS
  | c, fs, [] => (c, fs)
  | c, fs, e :: es =>
    let r := step c fs e
    if r.cont then runEvents r.chk r.fs es else (r.chk, r.fs)

/-- `Persist()` (the public record call): builds the `EventLogState` and
sends it on the save channel; its type carries no error. -/
def Persist (name : String) (recordNumber : Nat) (ts : Int) : Event :=
  Event.save { Name := name, RecordNumber := recordNumber, Timestamp := ts }

/-- `NewCheckpoint`: clamp the configuration floors, bootstrap from the
persisted file (missing file is not an error), seed the table from the
loaded snapshot, start the worker. -/
def NewCheckpoint (file : String) (maxUpdates : Int) (interval : Int)
    (fs : FS) : Except String Checkpoint :=
  let c0 : Checkpoint :=
    { file := file, numUpdates := 0, maxUpdates := maxUpdates,
      flushInterval := interval, states := [], onceDone := false }
  let c1 := if c0.maxUpdates < 1 then { c0 with maxUpdates := 1 } else c0
  let c2 :=
    if c1.flushInterval < oneSecond then { c1 with flushInterval := oneSecond }
    else c1
  match read fs with
  | Except.error e => Except.error e
  | Except.ok none => Except.ok c2
  | Except.ok (some ps) => Except.ok { c2 with states := ps.States.foldl setState [] }

/-- `Shutdown()`: guarded by `sync.Once`; the first call closes the done
channel (the worker breaks its loop and performs the final `persist`)
and waits for the worker; later calls do nothing.  The returned Bool is
whether the final `persist` wrote to storage. -/
def Shutdown (c : Checkpoint) (fs : FS) : Checkpoint × FS × Bool :=
  if c.onceDone then
    (c, fs, false)
  else
    let r := step c fs Event.done
    ({ r.chk with onceDone := true }, r.fs, r.persisted)

/-- Well-formedness of the association-list encoding of the Go map: each
entry's stored key is the state's `Name`. -/
def WFStates (m : List (String × EventLogState)) : Prop :=
  ∀ p ∈ m, (p.2).Name = p.1

/-! ### Concrete sample values used by the witnesses -/

def sampleApp : EventLogState := ⟨"Application", 10, 100⟩

def sampleSys : EventLogState := ⟨"System", 20, 200⟩

/-- A fresh filesystem: no file on disk, no failures injected. -/
def fsFresh : FS :=
  ⟨FileContent.absent, FileContent.absent, 0, 0, false, false, false, false⟩

/-- A filesystem holding a previously persisted snapshot, where the next
temp-file creation fails. -/
def fsCreateFail : FS :=
  ⟨FileContent.snapshot ⟨0, [sampleApp]⟩, FileContent.absent, 3, 7,
   true, false, false, false⟩

/-- A filesystem with an existing zero-length state file. -/
def fsEmptyFile : FS :=
  ⟨FileContent.empty, FileContent.absent, 0, 0, false, false, false, false⟩

/-- A filesystem with an existing unparsable state file. -/
def fsCorrupt : FS :=
  ⟨FileContent.corrupt, FileContent.absent, 0, 0, false, false, false, false⟩

/-- A freshly constructed clean checkpoint. -/
def cClean : Checkpoint := ⟨"evtlogs.yml", 0, 1, oneSecond, [], false⟩

/-- A dirty checkpoint holding two states. -/
def cDirty : Checkpoint :=
  ⟨"evtlogs.yml", 1, 100, oneSecond,
   [("System", sampleSys), ("Application", sampleApp)], false⟩

instance decidableWFStates (m : List (String × EventLogState)) :
    Decidable (WFStates m) :=
  List.decidableBAll _ m

/-- The checkpoint produced by a successful construction, before the
worker has processed any event. -/
def initialCheckpoint (file : String) (mu iv : Int)
    (sts : List (String × EventLogState)) : Checkpoint :=
  ⟨file, 0, if mu < 1 then 1 else mu,
   if iv < oneSecond then oneSecond else iv, sts, false⟩

/-- A second update for the same source as `sampleApp`. -/
def sampleApp2 : EventLogState := ⟨"Application", 11, 150⟩

/-- A filesystem holding a parseable snapshot of two sources. -/
def fsSeeded : FS :=
  ⟨FileContent.snapshot ⟨5, [sampleApp, sampleSys]⟩, FileContent.absent, 0, 0,
   false, false, false, false⟩

/-- A dirty one-entry checkpoint. -/
def cDirtyOne : Checkpoint :=
  ⟨"evtlogs.yml", 1, 100, oneSecond, [("Application", sampleApp)], false⟩

/-- The snapshot `flush cDirtyOne fsFresh` writes. -/
def psFlushed : PersistedState := ⟨0, [sampleApp]⟩

/-- The filesystem after `flush cDirtyOne fsFresh` succeeds. -/
def fsFlushed : FS :=
  ⟨FileContent.snapshot psFlushed, FileContent.absent, 1, 0,
   false, false, false, false⟩

/-! ### Supporting lemmas about the state table -/

theorem lookupState_setState (m : List (String × EventLogState))
    (s : EventLogState) (n : String) :
    lookupState (setState m s) n =
      if s.Name = n then some s else lookupState m n := by
  induction m with
  | nil => simp [setState, lookupState]
  | cons p t ih =>
    obtain ⟨k, v⟩ := p
    by_cases hk : k = s.Name
    · subst hk
      by_cases hn : s.Name = n <;> simp [setState, lookupState, hn]
    · by_cases hn : k = n
      · subst hn
        have hs : ¬s.Name = k := fun h => hk h.symm
        simp [setState, lookupState, hk, hs]
      · simp [setState, lookupState, hk, hn, ih]

theorem keys_setState (m : List (String × EventLogState)) (s : EventLogState) :
    (setState m s).map Prod.fst =
      if s.Name ∈ m.map Prod.fst then m.map Prod.fst
      else m.map Prod.fst ++ [s.Name] := by
  induction m with
  | nil => simp [setState]
  | cons p t ih =>
    obtain ⟨k, v⟩ := p
    by_cases hk : k = s.Name
    · subst hk
      simp [setState, List.mem_cons]
    · have hs : ¬s.Name = k := fun h => hk h.symm
      by_cases hmem : s.Name ∈ t.map Prod.fst <;>
        simp [setState, hk, ih, hmem, hs, List.mem_cons]

theorem nodup_keys_setState (m : List (String × EventLogState))
    (s : EventLogState) (h : (m.map Prod.fst).Nodup) :
    ((setState m s).map Prod.fst).Nodup := by
  rw [keys_setState]
  split
  · exact h
  · next hmem => simp [List.nodup_append, h, hmem]

theorem WFStates_setState (m : List (String × EventLogState))
    (s : EventLogState) (h : WFStates m) : WFStates (setState m s) := by
  induction m with
  | nil => intro p hp; simp [setState] at hp; simp [hp]
  | cons q t ih =>
    obtain ⟨k, v⟩ := q
    have ht : WFStates t := fun p hp => h p (List.mem_cons_of_mem _ hp)
    by_cases hk : k = s.Name
    · subst hk
      intro p hp
      simp [setState] at hp
      rcases hp with hp | hp
      · simp [hp]
      · exact h p (List.mem_cons_of_mem _ hp)
    · intro p hp
      simp [setState, hk] at hp
      rcases hp with hp | hp
      · subst hp; exact h (k, v) (List.mem_cons_self _ _)
      · exact ih ht p hp

theorem WFStates_foldl_setState (l : List EventLogState)
    (m : List (String × EventLogState)) (h : WFStates m) :
    WFStates (l.foldl setState m) := by
  induction l generalizing m with
  | nil => exact h
  | cons s t ih => exact ih _ (WFStates_setState m s h)

theorem lookupState_eq_of_wf (m : List (String × EventLogState))
    (h : WFStates m) (n : String) (hn : n ∈ m.map Prod.fst) :
    ((lookupState m n).getD default).Name = n := by
  induction m with
  | nil => simp at hn
  | cons p t ih =>
    obtain ⟨k, v⟩ := p
    have ht : WFStates t := fun q hq => h q (List.mem_cons_of_mem _ hq)
    by_cases hk : k = n
    · subst hk
      have hv : v.Name = k := h (k, v) (List.mem_cons_self _ _)
      simp [lookupState, hv]
    · rw [List.map_cons, List.mem_cons] at hn
      rcases hn with hn | hn
      · exact absurd hn.symm hk
      · simp [lookupState, hk, ih ht hn]

/-- Reading back every key of a duplicate-free table recovers exactly the
table's entries, in key order. -/
theorem map_lookup_keys (m : List (String × EventLogState))
    (h : (m.map Prod.fst).Nodup) :
    (m.map Prod.fst).map (fun n => (lookupState m n).getD default) =
      m.map Prod.snd := by
  induction m with
  | nil => rfl
  | cons p t ih =>
    obtain ⟨k, v⟩ := p
    simp only [List.map_cons, List.nodup_cons] at h
    have htail : ∀ n ∈ t.map Prod.fst,
        (lookupState ((k, v) :: t) n).getD default =
          (lookupState t n).getD default := by
      intro n hn
      have hkn : k ≠ n := fun hk => h.1 (hk ▸ hn)
      simp [lookupState, hkn]
    simp only [List.map_cons]
    rw [List.map_congr_left htail, ih h.2]
    simp [lookupState]

theorem persist_states (c : Checkpoint) (fs : FS) :
    (persist c fs).1.states = c.states := by
  unfold persist
  split
  · rfl
  · rcases h : flush c fs with ⟨fs', e⟩
    cases e <;> simp [h]

theorem step_save_chk (c : Checkpoint) (fs : FS) (s : EventLogState) :
    (step c fs (Event.save s)).chk.states = setState c.states s ∧
    (step c fs (Event.save s)).cont = true := by
  by_cases h : c.numUpdates + 1 < c.maxUpdates <;>
    simp [step, h, persist_states]

/-- Folding a run of save events through the worker loop: the lookup of
any name in the final table is the left fold of last-write-wins updates
over the starting lookup. -/
theorem runEvents_saves_lookup (us : List EventLogState) (c : Checkpoint)
    (fs : FS) (n : String) :
    lookupState (runEvents c fs (us.map Event.save)).1.states n =
      us.foldl (fun acc s => if s.Name = n then some s else acc)
        (lookupState c.states n) := by
  induction us generalizing c fs with
  | nil => rfl
  | cons u t ih =>
    have hs := step_save_chk c fs u
    simp only [List.map_cons, runEvents, hs.2, if_true]
    rw [ih, hs.1, lookupState_setState]
    simp only [List.foldl_cons]

/-- The worker loop preserves uniqueness of the table's keys. -/
theorem runEvents_saves_nodup (us : List EventLogState) (c : Checkpoint)
    (fs : FS) (h : (c.states.map Prod.fst).Nodup) :
    ((runEvents c fs (us.map Event.save)).1.states.map Prod.fst).Nodup := by
  induction us generalizing c fs with
  | nil => exact h
  | cons u t ih =>
    have hs := step_save_chk c fs u
    simp only [List.map_cons, runEvents, hs.2, if_true]
    exact ih _ _ (hs.1 ▸ nodup_keys_setState c.states u h)

theorem foldl_lastFor_of_not_mem (l : List EventLogState) (n : String)
    (acc : Option EventLogState) (h : ∀ s ∈ l, s.Name ≠ n) :
    l.foldl (fun acc s => if s.Name = n then some s else acc) acc = acc := by
  induction l generalizing acc with
  | nil => rfl
  | cons u t ih =>
    have hu : u.Name ≠ n := h u (List.mem_cons_self _ _)
    simp only [List.foldl_cons, hu, if_neg hu]
    exact ih _ fun s hs => h s (List.mem_cons_of_mem _ hs)

theorem foldl_lastFor_of_nodup (l : List EventLogState) (s : EventLogState)
    (hs : s ∈ l) (hnd : (l.map EventLogState.Name).Nodup)
    (acc : Option EventLogState) :
    l.foldl (fun acc t => if t.Name = s.Name then some t else acc) acc =
      some s := by
  induction l generalizing acc with
  | nil => simp at hs
  | cons u t ih =>
    simp only [List.map_cons, List.nodup_cons] at hnd
    rcases List.mem_cons.mp hs with hu | hu
    · subst hu
      simp only [List.foldl_cons, if_pos rfl]
      exact foldl_lastFor_of_not_mem t s.Name (some s)
        fun q hq hqn => hnd.1 (hqn ▸ List.mem_map_of_mem _ hq)
    · simp only [List.foldl_cons]
      exact ih hu hnd.2 _

/-- Seeding an empty table from a duplicate-free snapshot makes every
snapshot entry retrievable. -/
theorem lookupState_foldl_setState (l : List EventLogState)
    (m : List (String × EventLogState)) (n : String) :
    lookupState (l.foldl setState m) n =
      l.foldl (fun acc s => if s.Name = n then some s else acc)
        (lookupState m n) := by
  induction l generalizing m with
  | nil => rfl
  | cons u t ih =>
    simp only [List.foldl_cons]
    rw [ih, lookupState_setState]

/-- Full evaluation of `NewCheckpoint` by cases on the persisted file. -/
theorem NewCheckpoint_eval (file : String) (mu iv : Int) (fs : FS) :
    NewCheckpoint file mu iv fs =
      match fs.target with
      | FileContent.absent => Except.ok (initialCheckpoint file mu iv [])
      | FileContent.empty => Except.ok (initialCheckpoint file mu iv [])
      | FileContent.snapshot ps =>
          Except.ok (initialCheckpoint file mu iv (ps.States.foldl setState []))
      | FileContent.corrupt => Except.error "yaml: unmarshal error" := by
  cases htgt : fs.target <;>
    simp only [NewCheckpoint, read, htgt, initialCheckpoint] <;>
    split_ifs <;> rfl

/-! ### The claims -/

/-- Claim C4: in every step of the worker loop, `persist` is invoked
exactly when the count of updates received since the last flush reaches
`maxUpdates` or the flush timer fires; an update below the threshold
causes no flush, and the timer is reset after every flush attempt,
successful or not. -/
theorem c4_trigger_policy (c : Checkpoint) (fs : FS) (s : EventLogState) :
    ((step c fs (Event.save s)).flushed = true ↔
        c.maxUpdates ≤ c.numUpdates + 1) ∧
    ((step c fs (Event.save s)).timerReset =
        (step c fs (Event.save s)).flushed) ∧
    ((step c fs Event.timer).flushed = true) ∧
    ((step c fs Event.timer).timerReset = true) := by
  by_cases h : c.numUpdates + 1 < c.maxUpdates <;>
    · refine ⟨?_, ?_, ?_, ?_⟩ <;> simp [step, h] <;> omega

/-- Claim C5: shutdown is idempotent: the first call drives the worker's
final flush (a `persist`, hence a storage write only if the state is
dirty) and marks the once-guard; a second call returns the state
unchanged and performs no flush, so closing twice flushes at most once. -/
theorem c5_shutdown_idempotent (c : Checkpoint) (fs : FS)
    (h : c.onceDone = false) :
    ((Shutdown c fs).1.onceDone = true) ∧
    (Shutdown (Shutdown c fs).1 (Shutdown c fs).2.1 =
      ((Shutdown c fs).1, (Shutdown c fs).2.1, false)) ∧
    ((Shutdown c fs).2.2 = (persist c fs).2.2) ∧
    (c.numUpdates = 0 →
      (Shutdown c fs).2.1 = fs ∧ (Shutdown c fs).2.2 = false) := by
  refine ⟨?_, ?_, ?_, fun h0 => ?_⟩
  · simp [Shutdown, h, step]
  · simp [Shutdown, h, step]
  · simp [Shutdown, h, step]
  · simp [Shutdown, h, step, persist, h0]

/-- Claim C5 witness at a clean, never-shut-down checkpoint. -/
theorem c5_shutdown_idempotent_witness :
    ((Shutdown cClean fsFresh).1.onceDone = true) ∧
    (Shutdown (Shutdown cClean fsFresh).1 (Shutdown cClean fsFresh).2.1 =
      ((Shutdown cClean fsFresh).1, (Shutdown cClean fsFresh).2.1, false)) ∧
    ((Shutdown cClean fsFresh).2.2 = (persist cClean fsFresh).2.2) ∧
    (cClean.numUpdates = 0 →
      (Shutdown cClean fsFresh).2.1 = fsFresh ∧
      (Shutdown cClean fsFresh).2.2 = false) :=
  c5_shutdown_idempotent cClean fsFresh rfl

/-- Claim C8: a flush trigger that finds zero pending updates performs no
storage operation at all: `persist` returns immediately and the
filesystem, including the target file and its modification marker, is
exactly unchanged. -/
theorem c8_clean_flush_noop (c : Checkpoint) (fs : FS)
    (h : c.numUpdates = 0) : persist c fs = (c, fs, false) := by
  simp [persist, h]

/-- Claim C8 witness: a clean checkpoint against a fresh filesystem. -/
theorem c8_clean_flush_noop_witness :
    persist cClean fsFresh = (cClean, fsFresh, false) :=
  c8_clean_flush_noop cClean fsFresh rfl

/-- Claim C9: the effective configuration always satisfies
`maxUpdates ≥ 1` and `flushInterval ≥ 1s`; sub-minimum arguments are
silently clamped to the floors, and construction fails only because of
an unparsable existing file, never because of the configuration. -/
theorem c9_config_clamped (file : String) (mu iv : Int) (fs : FS) :
    (∀ c, NewCheckpoint file mu iv fs = Except.ok c →
        c.maxUpdates = (if mu < 1 then 1 else mu) ∧
        c.flushInterval = (if iv < oneSecond then oneSecond else iv) ∧
        1 ≤ c.maxUpdates ∧ oneSecond ≤ c.flushInterval) ∧
    (∀ e, NewCheckpoint file mu iv fs = Except.error e →
        fs.target = FileContent.corrupt) := by
  have hev := NewCheckpoint_eval file mu iv fs
  constructor
  · intro c hc
    rw [hev] at hc
    cases htgt : fs.target <;> rw [htgt] at hc <;> simp at hc <;>
      rw [← hc] <;> refine ⟨rfl, rfl, ?_, ?_⟩ <;>
      simp [initialCheckpoint, oneSecond] <;> split_ifs <;> omega
  · intro e he
    rw [hev] at he
    cases htgt : fs.target <;> rw [htgt] at he <;> simp at he

/-- Claim C9 witness: constructing with `maxUpdates = 0` and a zero
interval on a fresh filesystem yields the clamped floors. -/
theorem c9_config_clamped_witness :
    (initialCheckpoint "evtlogs.yml" 0 0 []).maxUpdates =
        (if (0 : Int) < 1 then 1 else 0) ∧
      (initialCheckpoint "evtlogs.yml" 0 0 []).flushInterval =
        (if (0 : Int) < oneSecond then oneSecond else 0) ∧
      1 ≤ (initialCheckpoint "evtlogs.yml" 0 0 []).maxUpdates ∧
      oneSecond ≤ (initialCheckpoint "evtlogs.yml" 0 0 []).flushInterval :=
  (c9_config_clamped "evtlogs.yml" 0 0 fsFresh).1
    (initialCheckpoint "evtlogs.yml" 0 0 []) rfl

/-- Claim C10: opening on a path holding an existing zero-length file
succeeds with an empty state table, exactly as if the file were missing:
unmarshalling empty contents yields the zero-value snapshot with no
entries. -/
theorem c10_empty_file_like_absent (file : String) (mu iv : Int) (fs : FS)
    (h : fs.target = FileContent.empty) :
    NewCheckpoint file mu iv fs =
        Except.ok (initialCheckpoint file mu iv []) ∧
    NewCheckpoint file mu iv fs =
        NewCheckpoint file mu iv { fs with target := FileContent.absent } := by
  rw [NewCheckpoint_eval, NewCheckpoint_eval, h]
  exact ⟨rfl, rfl⟩

/-- Claim C10 witness: an existing empty file on an otherwise fresh
filesystem. -/
theorem c10_empty_file_like_absent_witness :
    NewCheckpoint "evtlogs.yml" 100 oneSecond fsEmptyFile =
        Except.ok (initialCheckpoint "evtlogs.yml" 100 oneSecond []) ∧
    NewCheckpoint "evtlogs.yml" 100 oneSecond fsEmptyFile =
        NewCheckpoint "evtlogs.yml" 100 oneSecond
          { fsEmptyFile with target := FileContent.absent } :=
  c10_empty_file_like_absent "evtlogs.yml" 100 oneSecond fsEmptyFile rfl

/-- On any failing path, `flush` leaves the target file and its
modification marker untouched. -/
theorem flush_fail_frame (c : Checkpoint) (fs fs' : FS) (e : String)
    (h : flush c fs = (fs', some e)) :
    fs'.target = fs.target ∧ fs'.modMarker = fs.modMarker := by
  simp only [flush] at h
  split_ifs at h <;>
    first
      | (rw [Prod.mk.injEq] at h; rw [← h.1]; exact ⟨rfl, rfl⟩)
      | exact absurd (congrArg Prod.snd h) (by simp)

/-- A failing `flush` makes `persist` return the checkpoint unchanged
(pending-update counter intact) with a `false` result, not an error. -/
theorem persist_fail (c : Checkpoint) (fs fs' : FS) (e : String)
    (hd : ¬c.numUpdates = 0) (h : flush c fs = (fs', some e)) :
    persist c fs = (c, fs', false) := by
  unfold persist
  rw [if_neg hd, h]

/-- On the successful path, `flush` replaces the target with the sorted
snapshot of the table and bumps the modification marker. -/
theorem flush_ok_spec (c : Checkpoint) (fs fs' : FS)
    (h : flush c fs = (fs', none)) :
    fs'.target = FileContent.snapshot
      ⟨fs.clock,
       (List.insertionSort (fun a b => a ≤ b) (c.states.map Prod.fst)).map
         (fun n => (lookupState c.states n).getD default)⟩ ∧
    fs'.modMarker = fs.modMarker + 1 := by
  simp only [flush] at h
  split_ifs at h <;>
    first
      | (rw [Prod.mk.injEq] at h; rw [← h.1]; exact ⟨rfl, rfl⟩)
      | exact absurd (congrArg Prod.snd h) (by simp)

/-- Claim C1: if any step of a flush fails, the previously persisted
target file (and its modification marker) is untouched, `persist`
swallows the error — returning the checkpoint with its pending-update
counter not reset, so the state stays dirty, rather than propagating an
error — and the next trigger invokes the flush again; once a later flush
succeeds its snapshot lands and the counter resets. -/
theorem c1_flush_failure_preserves_snapshot (c : Checkpoint) (fs fs' : FS)
    (e : String) (hdirty : ¬c.numUpdates = 0)
    (hfail : flush c fs = (fs', some e)) :
    fs'.target = fs.target ∧ fs'.modMarker = fs.modMarker ∧
    persist c fs = (c, fs', false) ∧
    (step c fs' Event.timer).flushed = true ∧
    (∀ fs2 fs3, flush c fs2 = (fs3, none) →
      (step c fs2 Event.timer).fs.target = fs3.target ∧
      (step c fs2 Event.timer).chk.numUpdates = 0) := by
  obtain ⟨h1, h2⟩ := flush_fail_frame c fs fs' e hfail
  refine ⟨h1, h2, persist_fail c fs fs' e hdirty hfail, rfl, ?_⟩
  intro fs2 fs3 hok
  simp [step, persist, hdirty, hok]

/-- Claim C1 witness: a dirty checkpoint whose temp-file creation fails
against a filesystem holding an earlier good snapshot. -/
theorem c1_flush_failure_preserves_snapshot_witness :
    fsCreateFail.target = fsCreateFail.target ∧
    fsCreateFail.modMarker = fsCreateFail.modMarker ∧
    persist cDirty fsCreateFail = (cDirty, fsCreateFail, false) ∧
    (step cDirty fsCreateFail Event.timer).flushed = true ∧
    (∀ fs2 fs3, flush cDirty fs2 = (fs3, none) →
      (step cDirty fs2 Event.timer).fs.target = fs3.target ∧
      (step cDirty fs2 Event.timer).chk.numUpdates = 0) :=
  c1_flush_failure_preserves_snapshot cDirty fsCreateFail fsCreateFail
    "Failed to flush state to disk. Could not open temp file."
    (by decide) rfl

/-- Claim C2: flushing a table with unique keys and reloading the file
with the bootstrap reader yields an entry set identical (a permutation,
hence the same set of entries) to the in-memory state at flush time. -/
theorem c2_flush_read_roundtrip (c : Checkpoint) (fs fs' : FS)
    (hnd : (c.states.map Prod.fst).Nodup)
    (hok : flush c fs = (fs', none)) :
    ∃ ps, read fs' = Except.ok (some ps) ∧
      ps.States.Perm (c.States.map Prod.snd) := by
  obtain ⟨htgt, -⟩ := flush_ok_spec c fs fs' hok
  refine ⟨⟨fs.clock,
    (List.insertionSort (fun a b => a ≤ b) (c.states.map Prod.fst)).map
      (fun n => (lookupState c.states n).getD default)⟩, ?_, ?_⟩
  · simp [read, htgt]
  · have hperm := List.Perm.map
      (fun n => (lookupState c.states n).getD default)
      (List.perm_insertionSort (fun a b : String => a ≤ b)
        (c.states.map Prod.fst))
    rw [map_lookup_keys c.states hnd] at hperm
    exact hperm

/-- Claim C2 witness: a dirty table flushed onto a fresh filesystem
round-trips. -/
theorem c2_flush_read_roundtrip_witness :
    ∃ ps, read fsFlushed = Except.ok (some ps) ∧
      ps.States.Perm (cDirtyOne.States.map Prod.snd) :=
  c2_flush_read_roundtrip cDirtyOne fsFresh fsFlushed (by decide) rfl

/-- Claim C3: the state for a given name after the worker has processed
a sequence of recorded updates is exactly the most recently recorded
entry for that name, replaced wholesale; names remain unique keys. -/
theorem c3_last_write_wins (us : List EventLogState) (c : Checkpoint)
    (fs : FS) (hnd : (c.states.map Prod.fst).Nodup) :
    (∀ n, lookupState (runEvents c fs (us.map Event.save)).1.States n =
      us.foldl (fun acc s => if s.Name = n then some s else acc)
        (lookupState c.States n)) ∧
    ((runEvents c fs (us.map Event.save)).1.States.map Prod.fst).Nodup :=
  ⟨fun n => runEvents_saves_lookup us c fs n,
   runEvents_saves_nodup us c fs hnd⟩

/-- Claim C3 witness: two updates for the same source; the table holds
only the second one. -/
theorem c3_last_write_wins_witness :
    lookupState (runEvents cClean fsFresh
        ([sampleApp, sampleApp2].map Event.save)).1.States "Application" =
      some sampleApp2 ∧
    ((runEvents cClean fsFresh
        ([sampleApp, sampleApp2].map Event.save)).1.States.map
      Prod.fst).Nodup := by
  have h := c3_last_write_wins [sampleApp, sampleApp2] cClean fsFresh
    (by decide)
  refine ⟨?_, h.2⟩
  rw [h.1 "Application"]
  decide

/-- Claim C6: at construction, a missing file yields an empty table, an
unparsable file yields an error and no instance, and on a successful
load every entry of the (duplicate-free) snapshot seeds the table. -/
theorem c6_bootstrap_cases (file : String) (mu iv : Int) (fs : FS) :
    (fs.target = FileContent.absent →
      ∃ c, NewCheckpoint file mu iv fs = Except.ok c ∧ c.states = []) ∧
    (fs.target = FileContent.corrupt →
      ∃ e, NewCheckpoint file mu iv fs = Except.error e) ∧
    (∀ ps, fs.target = FileContent.snapshot ps →
      ∃ c, NewCheckpoint file mu iv fs = Except.ok c ∧
        ((ps.States.map EventLogState.Name).Nodup →
          ∀ s ∈ ps.States, lookupState c.states s.Name = some s)) := by
  refine ⟨fun h => ?_, fun h => ?_, fun ps h => ?_⟩
  · exact ⟨initialCheckpoint file mu iv [],
      by rw [NewCheckpoint_eval, h], rfl⟩
  · exact ⟨"yaml: unmarshal error", by rw [NewCheckpoint_eval, h]⟩
  · refine ⟨initialCheckpoint file mu iv (ps.States.foldl setState []),
      by rw [NewCheckpoint_eval, h], fun hnd s hs => ?_⟩
    show lookupState (ps.States.foldl setState []) s.Name = some s
    rw [lookupState_foldl_setState]
    exact foldl_lastFor_of_nodup ps.States s hs hnd (lookupState [] s.Name)

/-- Claim C6 witness: a missing file, a corrupt file, and a two-entry
snapshot. -/
theorem c6_bootstrap_cases_witness :
    (∃ c, NewCheckpoint "evtlogs.yml" 100 oneSecond fsFresh = Except.ok c ∧
      c.states = []) ∧
    (∃ e, NewCheckpoint "evtlogs.yml" 100 oneSecond fsCorrupt =
      Except.error e) ∧
    (∃ c, NewCheckpoint "evtlogs.yml" 100 oneSecond fsSeeded = Except.ok c ∧
      ∀ s ∈ [sampleApp, sampleSys], lookupState c.states s.Name = some s) := by
  refine ⟨(c6_bootstrap_cases "evtlogs.yml" 100 oneSecond fsFresh).1 rfl,
    (c6_bootstrap_cases "evtlogs.yml" 100 oneSecond fsCorrupt).2.1 rfl, ?_⟩
  obtain ⟨c, hc, hseed⟩ :=
    (c6_bootstrap_cases "evtlogs.yml" 100 oneSecond fsSeeded).2.2
      ⟨5, [sampleApp, sampleSys]⟩ rfl
  exact ⟨c, hc, hseed (by decide)⟩

/-- Claim C7: every snapshot persisted by a successful flush of a
well-formed table lists its entries sorted by name in ascending order. -/
theorem c7_entries_sorted (c : Checkpoint) (fs fs' : FS)
    (hwf : WFStates c.states) (hok : flush c fs = (fs', none)) :
    ∃ ps, fs'.target = FileContent.snapshot ps ∧
      List.Sorted (fun a b : String => a ≤ b)
        (ps.States.map EventLogState.Name) := by
  obtain ⟨htgt, -⟩ := flush_ok_spec c fs fs' hok
  refine ⟨_, htgt, ?_⟩
  show List.Sorted _
    (((List.insertionSort (fun a b => a ≤ b) (c.states.map Prod.fst)).map
      (fun n => (lookupState c.states n).getD default)).map EventLogState.Name)
  rw [List.map_map]
  have hnames : ∀ n ∈ List.insertionSort (fun a b : String => a ≤ b)
      (c.states.map Prod.fst),
      (EventLogState.Name ∘ fun n => (lookupState c.states n).getD default) n
        = n := by
    intro n hn
    have hn' : n ∈ c.states.map Prod.fst :=
      (List.perm_insertionSort (fun a b : String => a ≤ b)
        (c.states.map Prod.fst)).mem_iff.mp hn
    exact lookupState_eq_of_wf c.states hwf n hn'
  rw [List.map_congr_left hnames, List.map_id']
  exact List.sorted_insertionSort _ _

/-- Claim C7 witness: a flushed snapshot is name-sorted. -/
theorem c7_entries_sorted_witness :
    ∃ ps, fsFlushed.target = FileContent.snapshot ps ∧
      List.Sorted (fun a b : String => a ≤ b)
        (ps.States.map EventLogState.Name) :=
  c7_entries_sorted cDirtyOne fsFresh fsFlushed (by decide) rfl

end Winlogbeat
